import Mathlib

/-!
# Verification of the IO helpers in src/io.rs (BLAKE3 crate)

This file shallowly embeds the two functions of src/io.rs and proves
properties about them.

* copy_wide(reader, hasher): loops reading into a 65536-byte buffer,
  feeding each nonempty chunk to the hasher, summing lengths into a u64
  total, retrying on ErrorKind::Interrupted, returning other errors, and
  returning Ok(total) on a zero-length read.

* maybe_mmap_file(file): probes the file size with seek(End(0)), declines
  (returning Ok(None)) on a failed probe, a size below 16 KiB, a size
  above usize::MAX, or a failed mapping attempt; every decline except the
  failed probe funnels through file.rewind()? before Ok(None); a
  successful mapping is returned without any rewind.

The reader is modelled as a finite trace of responses to successive read
calls; the hasher as the list of byte chunks passed to hasher.update, in
order.  A trace exhausted while the loop still runs is reported with the
distinguished outcome `pending`, which lets us express both termination
and non-termination of the Rust loop over finite prefixes of its input.
-/

/-- The two classes of read errors distinguished by copy_wide:
std::io::ErrorKind::Interrupted versus every other kind (identified by a
numeric code). -/
inductive ErrorKind where
  | interrupted : ErrorKind
  | other : Nat → ErrorKind
deriving DecidableEq, Repr

/-- One response of the reader to a read(&mut buffer) call: either
Ok(n) together with the n bytes placed at the front of the buffer, or
Err(e) with e.kind() = kind. -/
inductive ReadEvent where
  | ok : List Nat → ReadEvent
  | err : ErrorKind → ReadEvent
deriving DecidableEq, Repr

/-- Outcome of running the copy_wide loop over a finite trace of read
events.  `ok total` and `err kind` are the Rust function's returns;
`panicked` is the index-out-of-bounds panic of buffer[..n] when a read
reports n greater than the buffer length; `pending total` means the trace
was exhausted while the loop was still running (the Rust loop would issue
another read). -/
inductive CopyOutcome where
  | ok : Nat → CopyOutcome
  | err : ErrorKind → CopyOutcome
  | panicked : CopyOutcome
  | pending : Nat → CopyOutcome
deriving DecidableEq, Repr

/-- 2^64, the modulus of the u64 running total. -/
def U64_MOD : Nat := 2 ^ 64

/-- The buffer allocated by copy_wide is [0; 65536]. -/
def BUF_LEN : Nat := 65536

/-- The loop of copy_wide, run over a finite trace of read events with a
running u64 total and the list of chunks ingested into the hasher so far.
Mirrors the match in the Rust source: Ok(0) returns Ok(total); Ok(n)
ingests buffer[..n] (a panic if n exceeds the buffer length) and adds n
to the total; Err with ErrorKind::Interrupted continues; any other Err is
returned. -/
def copy_wideRun : List ReadEvent → Nat → List (List Nat) →
    CopyOutcome × List (List Nat)
  | [], total, acc => (CopyOutcome.pending total, acc)
  | ReadEvent.ok data :: rest, total, acc =>
      if data.length = 0 then
        (CopyOutcome.ok total, acc)
      else if data.length ≤ BUF_LEN then
        copy_wideRun rest ((total + data.length) % U64_MOD) (acc ++ [data])
      else
        (CopyOutcome.panicked, acc)
  | ReadEvent.err kind :: rest, total, acc =>
      if kind = ErrorKind.interrupted then
        copy_wideRun rest total acc
      else
        (CopyOutcome.err kind, acc)

/-- copy_wide started as in the Rust source: total = 0 and no chunk yet
ingested into the hasher. -/
def copy_wide (events : List ReadEvent) : CopyOutcome × List (List Nat) :=
  copy_wideRun events 0 []

/-- Erase every interrupted-read response from a trace; the remaining
trace is the same source without the transient interruptions. -/
def dropInterrupts : List ReadEvent → List ReadEvent
  | [] => []
  | ReadEvent.err ErrorKind.interrupted :: rest => dropInterrupts rest
  | e :: rest => e :: dropInterrupts rest

/-- Model of the open file handed to maybe_mmap_file: its size, and
whether each of the three fallible operations the function performs on it
(the size-probe seek to End(0), the platform mapping attempt, the final
rewind) succeeds. -/
structure FileModel where
  size : Nat
  seekEndOk : Bool
  mapOk : Bool
  rewindOk : Bool
deriving DecidableEq, Repr

/-- Observable outcome of maybe_mmap_file: the returned value (an error,
or an optional mapping recorded by its length), the final seek position
of the handle, and whether the mapping attempt and the rewind were
performed. -/
structure MmapOutcome where
  result : Except Unit (Option Nat)
  finalPos : Nat
  mapAttempted : Bool
  rewindAttempted : Bool
deriving Repr

/-- The shared tail of the three declining branches: file.rewind()?
followed by Ok(None).  A successful rewind puts the cursor at 0; a failed
one propagates the error (we model the failed rewind as leaving the
cursor where it was). -/
def rewindAndDecline (f : FileModel) (p : Nat) (attempted : Bool) :
    MmapOutcome :=
  if f.rewindOk then
    ⟨Except.ok none, 0, attempted, true⟩
  else
    ⟨Except.error (), p, attempted, true⟩

/-- maybe_mmap_file over the file model.  usizeMax is the platform's
usize::MAX; pos is the seek cursor at entry (the source documents the
assumption that it is 0).  The size-probe seek(End(0)) moves the cursor
to f.size and yields the size; a failed probe leaves the cursor
unchanged (the OS does not move the offset on a failed seek) and returns
Ok(None) at once.  Then the if/else-if chain of the source: too small and
too big fall through past the mapping attempt; a successful attempt
returns Ok(Some(map)) with no rewind; all declining branches funnel into
rewindAndDecline. -/
def maybe_mmap_file (usizeMax : Nat) (f : FileModel) (pos : Nat) :
    MmapOutcome :=
  if f.seekEndOk then
    if f.size < 16 * 1024 then
      rewindAndDecline f f.size false
    else if f.size > usizeMax then
      rewindAndDecline f f.size false
    else if f.mapOk then
      ⟨Except.ok (some f.size), f.size, true, false⟩
    else
      rewindAndDecline f f.size true
  else
    ⟨Except.ok none, pos, false, false⟩

example :
    copy_wide [ReadEvent.ok [1, 2, 3], ReadEvent.err ErrorKind.interrupted,
      ReadEvent.ok [4], ReadEvent.ok []] =
    (CopyOutcome.ok 4, [[1, 2, 3], [4]]) := by decide

/-- Running the loop over a trace of nonempty in-bounds chunks followed by
a zero-length read adds the chunk lengths to the total and appends the
chunks, in order, to the ingested list. -/
theorem copy_wideRun_chunks (chunks : List (List Nat)) (total : Nat)
    (acc : List (List Nat))
    (hne : ∀ c ∈ chunks, c ≠ [])
    (hb : ∀ c ∈ chunks, c.length ≤ BUF_LEN)
    (hsum : total + (chunks.map List.length).sum < U64_MOD) :
    copy_wideRun (chunks.map ReadEvent.ok ++ [ReadEvent.ok []]) total acc =
      (CopyOutcome.ok (total + (chunks.map List.length).sum), acc ++ chunks) := by
  induction chunks generalizing total acc with
  | nil => simp [copy_wideRun]
  | cons c cs ih =>
      have hcne : c.length ≠ 0 := by
        simpa [List.length_eq_zero] using hne c (by simp)
      have hcb : c.length ≤ BUF_LEN := hb c (by simp)
      have hmod : (total + c.length) % U64_MOD = total + c.length := by
        apply Nat.mod_eq_of_lt
        simp only [List.map_cons, List.sum_cons] at hsum
        omega
      simp only [List.map_cons, List.cons_append, copy_wideRun, hcne,
        if_false, hcb, if_true, hmod, List.sum_cons, List.append_eq]
      rw [ih (total + c.length) (acc ++ [c])
        (fun d hd => hne d (by simp [hd]))
        (fun d hd => hb d (by simp [hd]))
        (by simp only [List.map_cons, List.sum_cons] at hsum; omega)]
      rw [Prod.mk.injEq]
      refine ⟨by rw [Nat.add_assoc], by simp⟩

/-- Erasing the interrupted reads from a trace does not change the run
from any loop state. -/
theorem copy_wideRun_dropInterrupts (es : List ReadEvent) (total : Nat)
    (acc : List (List Nat)) :
    copy_wideRun es total acc = copy_wideRun (dropInterrupts es) total acc := by
  induction es generalizing total acc with
  | nil => rfl
  | cons e rest ih =>
      cases e with
      | ok data =>
          by_cases h0 : data.length = 0
          · simp [dropInterrupts, copy_wideRun, h0]
          · by_cases hb : data.length ≤ BUF_LEN
            · simp [dropInterrupts, copy_wideRun, h0, hb, ih]
            · simp [dropInterrupts, copy_wideRun, h0, hb]
      | err kind =>
          cases kind with
          | interrupted => simp [dropInterrupts, copy_wideRun, ih]
          | other code => simp [dropInterrupts, copy_wideRun]

/-- C1: for every source yielding a finite sequence of nonempty chunks
(each within the Read contract, total within u64) followed by one
zero-length read, copy_wide returns Ok with the sum of the chunk lengths,
and the hasher receives exactly those chunks, in source order, each
ingested exactly once. -/
theorem copy_wide_sums_chunks (chunks : List (List Nat))
    (hne : ∀ c ∈ chunks, c ≠ [])
    (hb : ∀ c ∈ chunks, c.length ≤ BUF_LEN)
    (hsum : (chunks.map List.length).sum < U64_MOD) :
    copy_wide (chunks.map ReadEvent.ok ++ [ReadEvent.ok []]) =
      (CopyOutcome.ok (chunks.map List.length).sum, chunks) := by
  unfold copy_wide
  rw [copy_wideRun_chunks chunks 0 [] hne hb (by simpa using hsum)]
  simp

/-- Witness for C1 at the concrete source yielding [1,2,3] then [4] then
end-of-source. -/
theorem copy_wide_sums_chunks_witness :
    copy_wide ([[1, 2, 3], [4]].map ReadEvent.ok ++ [ReadEvent.ok []]) =
      (CopyOutcome.ok ([[1, 2, 3], [4]].map List.length).sum,
        [[1, 2, 3], [4]]) :=
  copy_wide_sums_chunks [[1, 2, 3], [4]] (by decide) (by decide) (by decide)

/-- C2: interrupted-read responses inserted anywhere in a source — before
the first successful read, between successful reads, anywhere at all —
change nothing: copy_wide on the source with the interrupts equals
copy_wide on the source with every interrupt erased, total and ingested
chunk sequence alike. -/
theorem copy_wide_interrupt_invariant (es : List ReadEvent) :
    copy_wide es = copy_wide (dropInterrupts es) :=
  copy_wideRun_dropInterrupts es 0 []

/-- Running the loop over nonempty in-bounds chunks followed by a
non-interrupted error returns that error with exactly the prior chunks
appended to the ingested list, whatever the trace holds afterwards. -/
theorem copy_wideRun_chunks_then_err (chunks : List (List Nat)) (code : Nat)
    (rest : List ReadEvent) (total : Nat) (acc : List (List Nat))
    (hne : ∀ c ∈ chunks, c ≠ [])
    (hb : ∀ c ∈ chunks, c.length ≤ BUF_LEN) :
    copy_wideRun
        (chunks.map ReadEvent.ok ++ ReadEvent.err (ErrorKind.other code) :: rest)
        total acc =
      (CopyOutcome.err (ErrorKind.other code), acc ++ chunks) := by
  induction chunks generalizing total acc with
  | nil => simp [copy_wideRun]
  | cons c cs ih =>
      have hcne : c.length ≠ 0 := by
        simpa [List.length_eq_zero] using hne c (by simp)
      have hcb : c.length ≤ BUF_LEN := hb c (by simp)
      simp only [List.map_cons, List.cons_append, copy_wideRun, hcne,
        if_false, hcb, if_true, List.append_eq]
      rw [ih ((total + c.length) % U64_MOD) (acc ++ [c])
        (fun d hd => hne d (by simp [hd]))
        (fun d hd => hb d (by simp [hd]))]
      simp

/-- C6: a read failing with any non-interrupted error makes copy_wide
return that very error at once, with no retry and nothing read
afterwards mattering; the hasher has ingested exactly the chunks of the
prior successful reads and nothing from the failed attempt. -/
theorem copy_wide_error_propagates (chunks : List (List Nat)) (code : Nat)
    (rest : List ReadEvent)
    (hne : ∀ c ∈ chunks, c ≠ [])
    (hb : ∀ c ∈ chunks, c.length ≤ BUF_LEN) :
    copy_wide
        (chunks.map ReadEvent.ok ++ ReadEvent.err (ErrorKind.other code) :: rest) =
      (CopyOutcome.err (ErrorKind.other code), chunks) := by
  unfold copy_wide
  rw [copy_wideRun_chunks_then_err chunks code rest 0 [] hne hb]
  simp

/-- Witness for C6: one successful chunk, then a failing read, then a
trailing chunk that is never requested. -/
theorem copy_wide_error_propagates_witness :
    copy_wide
        ([[7, 8]].map ReadEvent.ok ++
          ReadEvent.err (ErrorKind.other 5) :: [ReadEvent.ok [9]]) =
      (CopyOutcome.err (ErrorKind.other 5), [[7, 8]]) :=
  copy_wide_error_propagates [[7, 8]] 5 [ReadEvent.ok [9]] (by decide) (by decide)

/-- A trace holding a terminating response — a zero-length read or a
non-interrupted error — never leaves the loop pending, from any state. -/
theorem copy_wideRun_terminates (es : List ReadEvent) :
    ∀ (total : Nat) (acc : List (List Nat)) (t : Nat),
      (ReadEvent.ok [] ∈ es ∨
        ∃ code, ReadEvent.err (ErrorKind.other code) ∈ es) →
      (copy_wideRun es total acc).1 ≠ CopyOutcome.pending t := by
  induction es with
  | nil =>
      intro total acc t hterm
      rcases hterm with h | ⟨code, h⟩ <;> simp at h
  | cons e rest ih =>
      intro total acc t hterm
      cases e with
      | ok data =>
          by_cases h0 : data.length = 0
          · simp [copy_wideRun, h0]
          · by_cases hb : data.length ≤ BUF_LEN
            · simp only [copy_wideRun, h0, if_false, hb, if_true]
              refine ih ((total + data.length) % U64_MOD) (acc ++ [data]) t ?_
              rcases hterm with h | ⟨code, h⟩
              · rcases List.mem_cons.1 h with h | h
                · injection h with h2
                  subst h2
                  simp at h0
                · exact Or.inl h
              · rcases List.mem_cons.1 h with h | h
                · exact absurd h (by simp)
                · exact Or.inr ⟨code, h⟩
            · simp [copy_wideRun, h0, hb]
      | err kind =>
          cases kind with
          | interrupted =>
              simp only [copy_wideRun, if_pos rfl]
              refine ih total acc t ?_
              rcases hterm with h | ⟨code, h⟩
              · rcases List.mem_cons.1 h with h | h
                · exact absurd h (by simp)
                · exact Or.inl h
              · rcases List.mem_cons.1 h with h | h
                · exact absurd h (by simp)
                · exact Or.inr ⟨code, h⟩
          | other code => simp [copy_wideRun]

/-- A trace of nothing but interrupted reads leaves the loop exactly
where it started: still running, nothing ingested, total untouched. -/
theorem copy_wideRun_all_interrupted (n : Nat) (total : Nat)
    (acc : List (List Nat)) :
    copy_wideRun (List.replicate n (ReadEvent.err ErrorKind.interrupted))
        total acc =
      (CopyOutcome.pending total, acc) := by
  induction n with
  | zero => rfl
  | succ m ih => simpa [List.replicate_succ, copy_wideRun] using ih

/-- C7: copy_wide terminates on every source that eventually answers with
a zero-length read or a non-interrupted error (the run never ends in the
pending state); and a source that only ever signals interruption never
ingests a byte and never returns — after any finite number of reads the
loop is still pending with total 0 and an empty ingestion list. -/
theorem copy_wide_termination :
    (∀ es : List ReadEvent,
        (ReadEvent.ok [] ∈ es ∨
          ∃ code, ReadEvent.err (ErrorKind.other code) ∈ es) →
        ∀ t, (copy_wide es).1 ≠ CopyOutcome.pending t)
    ∧ ∀ n : Nat,
        copy_wide (List.replicate n (ReadEvent.err ErrorKind.interrupted)) =
          (CopyOutcome.pending 0, []) :=
  ⟨fun es hterm t => copy_wideRun_terminates es 0 [] t hterm,
   fun n => copy_wideRun_all_interrupted n 0 []⟩

/-- Witness for C7: a one-event terminating trace is not pending, and
three straight interruptions leave the loop pending with nothing
ingested. -/
theorem copy_wide_termination_witness :
    ((copy_wide [ReadEvent.ok []]).1 ≠ CopyOutcome.pending 0)
    ∧ copy_wide (List.replicate 3 (ReadEvent.err ErrorKind.interrupted)) =
        (CopyOutcome.pending 0, []) :=
  ⟨copy_wide_termination.1 [ReadEvent.ok []] (Or.inl (by simp)) 0,
   copy_wide_termination.2 3⟩

/-- From any loop state whose ingested chunks are nonempty and within the
buffer bound, a trace whose successful reads all respect the Read
contract never panics and only ever ingests nonempty in-bounds chunks. -/
theorem copy_wideRun_no_panic (es : List ReadEvent) :
    ∀ (total : Nat) (acc : List (List Nat)),
      (∀ data, ReadEvent.ok data ∈ es → data.length ≤ BUF_LEN) →
      (∀ c ∈ acc, 1 ≤ c.length ∧ c.length ≤ BUF_LEN) →
      (copy_wideRun es total acc).1 ≠ CopyOutcome.panicked ∧
        ∀ c ∈ (copy_wideRun es total acc).2,
          1 ≤ c.length ∧ c.length ≤ BUF_LEN := by
  induction es with
  | nil =>
      intro total acc hread hacc
      exact ⟨by simp [copy_wideRun], fun c hc => hacc c hc⟩
  | cons e rest ih =>
      intro total acc hread hacc
      cases e with
      | ok data =>
          have hdb : data.length ≤ BUF_LEN := hread data (by simp)
          by_cases h0 : data.length = 0
          · exact ⟨by simp [copy_wideRun, h0], by
              simp only [copy_wideRun, h0, if_true]
              exact fun c hc => hacc c hc⟩
          · simp only [copy_wideRun, h0, if_false, hdb, if_true]
            refine ih ((total + data.length) % U64_MOD) (acc ++ [data])
              (fun d hd => hread d (by simp [hd])) ?_
            intro c hc
            rcases List.mem_append.1 hc with hc | hc
            · exact hacc c hc
            · rcases List.mem_singleton.1 hc with rfl
              exact ⟨Nat.one_le_iff_ne_zero.2 h0, hdb⟩
      | err kind =>
          cases kind with
          | interrupted =>
              simp only [copy_wideRun, if_pos rfl]
              exact ih total acc (fun d hd => hread d (by simp [hd])) hacc
          | other code =>
              exact ⟨by simp [copy_wideRun], by
                simp only [copy_wideRun]
                intro c hc
                exact hacc c (by simpa using hc)⟩

/-- C10: for every reader honoring the Read contract (each successful
read reports at most the 65536-byte buffer length), copy_wide never
panics — the slice buffer[..n] is always in bounds — and every slice
handed to hasher.update has length between 1 and 65536, never zero. -/
theorem copy_wide_no_panic (es : List ReadEvent)
    (hread : ∀ data, ReadEvent.ok data ∈ es → data.length ≤ BUF_LEN) :
    (copy_wide es).1 ≠ CopyOutcome.panicked ∧
      ∀ c ∈ (copy_wide es).2, 1 ≤ c.length ∧ c.length ≤ BUF_LEN :=
  copy_wideRun_no_panic es 0 [] hread (by simp)

/-- Witness for C10 on a two-event trace. -/
theorem copy_wide_no_panic_witness :
    (copy_wide [ReadEvent.ok [1], ReadEvent.ok []]).1 ≠ CopyOutcome.panicked ∧
      ∀ c ∈ (copy_wide [ReadEvent.ok [1], ReadEvent.ok []]).2,
        1 ≤ c.length ∧ c.length ≤ BUF_LEN :=
  copy_wide_no_panic [ReadEvent.ok [1], ReadEvent.ok []]
    (by
      intro data hd
      simp only [List.mem_cons, List.not_mem_nil, or_false] at hd
      rcases hd with h | h <;> injection h with h2 <;> subst h2 <;> decide)

/-- C3: whenever maybe_mmap_file, entered with the cursor at 0 as the
source documents, declines the mapping and returns Ok(None) — failed
size probe, too-small file, too-large file, or failed mapping attempt —
the handle's seek cursor is at position 0 on return. -/
theorem maybe_mmap_file_decline_rewinds (usizeMax : Nat) (f : FileModel)
    (h : (maybe_mmap_file usizeMax f 0).result = Except.ok none) :
    (maybe_mmap_file usizeMax f 0).finalPos = 0 := by
  unfold maybe_mmap_file rewindAndDecline at h ⊢
  split_ifs at h ⊢ <;> simp_all

/-- Witness for C3 on a 100-byte file (declined as too small). -/
theorem maybe_mmap_file_decline_rewinds_witness :
    (maybe_mmap_file (2 ^ 64 - 1) ⟨100, true, true, true⟩ 0).result =
        Except.ok none
    ∧ (maybe_mmap_file (2 ^ 64 - 1) ⟨100, true, true, true⟩ 0).finalPos = 0 :=
  ⟨rfl, maybe_mmap_file_decline_rewinds (2 ^ 64 - 1) ⟨100, true, true, true⟩ rfl⟩

/-- C4: maybe_mmap_file returns Err exactly when the size probe
succeeded, the mapping was declined (too small, too large, or the
attempt failed), and the final rewind failed; a failed size probe gives
Ok(None) untouched, and with a working rewind no input ever produces an
Err. -/
theorem maybe_mmap_file_err_iff (usizeMax : Nat) (f : FileModel) (pos : Nat) :
    ((maybe_mmap_file usizeMax f pos).result = Except.error () ↔
      f.seekEndOk = true ∧ f.rewindOk = false ∧
        (f.size < 16 * 1024 ∨ usizeMax < f.size ∨ f.mapOk = false))
    ∧ (f.seekEndOk = false →
        maybe_mmap_file usizeMax f pos = ⟨Except.ok none, pos, false, false⟩)
    ∧ (f.rewindOk = true →
        (maybe_mmap_file usizeMax f pos).result ≠ Except.error ()) := by
  unfold maybe_mmap_file rewindAndDecline
  split_ifs <;> simp_all

/-- Witness for C4: too-large file with a broken rewind yields Err. -/
theorem maybe_mmap_file_err_iff_witness :
    (maybe_mmap_file 255 ⟨20000, true, true, false⟩ 0).result =
      Except.error () :=
  (maybe_mmap_file_err_iff 255 ⟨20000, true, true, false⟩ 0).1.2
    ⟨rfl, rfl, Or.inr (Or.inl (by norm_num))⟩

/-- C5: a file probed at exactly 16 KiB − 1 bytes never has a mapping
attempted (the outcome is the same whether the platform map would
succeed or not) and yields no mapping; a file probed at exactly 16 KiB
on a platform where the attempt succeeds yields a mapping. -/
theorem maybe_mmap_file_size_threshold (usizeMax pos : Nat)
    (hN : 16384 ≤ usizeMax) :
    (∀ mk rk : Bool,
        (maybe_mmap_file usizeMax ⟨16383, true, mk, rk⟩ pos).mapAttempted =
            false
      ∧ ∀ m, (maybe_mmap_file usizeMax ⟨16383, true, mk, rk⟩ pos).result ≠
          Except.ok (some m))
    ∧ ∀ rk : Bool,
        (maybe_mmap_file usizeMax ⟨16384, true, true, rk⟩ pos).result =
          Except.ok (some 16384) := by
  constructor
  · intro mk rk
    unfold maybe_mmap_file rewindAndDecline
    norm_num
    split_ifs <;> simp
  · intro rk
    unfold maybe_mmap_file
    have h2 : ¬((16384 : Nat) < 16 * 1024) := by norm_num
    have h3 : ¬((16384 : Nat) > usizeMax) := by omega
    simp [h2, h3]

/-- Witness for C5 on a 64-bit platform. -/
theorem maybe_mmap_file_size_threshold_witness :
    (maybe_mmap_file (2 ^ 64 - 1) ⟨16383, true, true, true⟩ 0).mapAttempted =
        false
    ∧ (maybe_mmap_file (2 ^ 64 - 1) ⟨16384, true, true, true⟩ 0).result =
        Except.ok (some 16384) :=
  ⟨((maybe_mmap_file_size_threshold (2 ^ 64 - 1) 0 (by norm_num)).1
      true true).1,
   (maybe_mmap_file_size_threshold (2 ^ 64 - 1) 0 (by norm_num)).2 true⟩

/-- C8: a file whose probed size exceeds the platform's usize::MAX never
has a mapping attempted and yields no mapping. -/
theorem maybe_mmap_file_too_big (usizeMax pos : Nat) (f : FileModel)
    (hf : usizeMax < f.size) :
    (maybe_mmap_file usizeMax f pos).mapAttempted = false
    ∧ ∀ m, (maybe_mmap_file usizeMax f pos).result ≠ Except.ok (some m) := by
  unfold maybe_mmap_file rewindAndDecline
  split_ifs <;> simp_all

/-- Witness for C8: a 65536-byte file on a 16-bit platform
(usize::MAX = 65535). -/
theorem maybe_mmap_file_too_big_witness :
    (maybe_mmap_file 65535 ⟨65536, true, true, true⟩ 0).mapAttempted = false
    ∧ ∀ m, (maybe_mmap_file 65535 ⟨65536, true, true, true⟩ 0).result ≠
        Except.ok (some m) :=
  maybe_mmap_file_too_big 65535 0 ⟨65536, true, true, true⟩ (by norm_num)

/-- C9: when maybe_mmap_file returns a mapping it performs no rewind, and
the cursor is left exactly where the size-probe seek put it: at the end
of the file. -/
theorem maybe_mmap_file_success_no_rewind (usizeMax pos : Nat)
    (f : FileModel) (m : Nat)
    (h : (maybe_mmap_file usizeMax f pos).result = Except.ok (some m)) :
    (maybe_mmap_file usizeMax f pos).rewindAttempted = false
    ∧ (maybe_mmap_file usizeMax f pos).finalPos = f.size := by
  unfold maybe_mmap_file rewindAndDecline at h ⊢
  split_ifs at h ⊢ <;> simp_all

/-- Witness for C9 on a successfully mapped 16 KiB file. -/
theorem maybe_mmap_file_success_no_rewind_witness :
    (maybe_mmap_file (2 ^ 64 - 1) ⟨16384, true, true, true⟩ 0).rewindAttempted =
        false
    ∧ (maybe_mmap_file (2 ^ 64 - 1) ⟨16384, true, true, true⟩ 0).finalPos =
        16384 :=
  maybe_mmap_file_success_no_rewind (2 ^ 64 - 1) 0 ⟨16384, true, true, true⟩
    16384 rfl

example :
    maybe_mmap_file (2 ^ 64 - 1) ⟨16384, true, true, true⟩ 0 =
    ⟨Except.ok (some 16384), 16384, true, false⟩ := by
  simp [maybe_mmap_file]

example :
    maybe_mmap_file (2 ^ 64 - 1) ⟨16383, true, true, true⟩ 0 =
    ⟨Except.ok none, 0, false, true⟩ := by
  simp [maybe_mmap_file, rewindAndDecline]
